import Mathlib

/-! Verification of the QR-code generator bot (`src/bot.py`).

Strings are modelled as `List Char` (Python `str` is a sequence of Unicode
code points).  The pure helpers of the source — `is_valid_url`,
`extract_single_url`, `sanitize_filename` — are embedded directly; the
message handlers are embedded as functions from an *environment* (Booleans
saying which external calls raise) to the list of observable transport
effects the handler attempts, mirroring the source's try/except control
flow branch by branch.
-/

/-! Character predicates (Python semantics) -/

/-- Python Unicode whitespace: the set of code points for which
`str.isspace()` holds, which is also what `re`'s `\s` matches and what
`str.strip()` removes. -/
def isPySpace (c : Char) : Bool :=
  let n := c.toNat
  (9 ≤ n && n ≤ 13) || (28 ≤ n && n ≤ 31) || n == 32 ||
  n == 0x85 || n == 0xA0 || n == 0x1680 ||
  (0x2000 ≤ n && n ≤ 0x200A) || n == 0x2028 || n == 0x2029 ||
  n == 0x202F || n == 0x205F || n == 0x3000

/-- Python `re` word character `\w` (Unicode mode, the default for `str`
patterns): ASCII letters and digits, the underscore, and alphanumeric code
points of every other script.  Of the non-ASCII scripts this development
only ever evaluates Cyrillic letters, so the model lists the basic
Cyrillic letter block U+0410–U+044F (every code point in it is a Unicode
letter); the theorems never rely on a character outside this model being
a non-word character unless it provably is one (ASCII punctuation). -/
def isWordChar (c : Char) : Bool :=
  c.isAlphanum || c == '_' || (0x410 ≤ c.toNat && c.toNat ≤ 0x44F)

/-- Characters kept (not replaced by `_`) by `sanitize_filename`:
the regex class `[^\w\-.]` replaces everything except `\w`, `-`, `.`. -/
def keepChar (c : Char) : Bool :=
  isWordChar c || c == '-' || c == '.'

/-- The character set `[A-Za-z0-9_.-]` named by the specification.
`Char.isAlphanum` is exactly ASCII `[A-Za-z0-9]`. -/
def asciiAllowed (c : Char) : Bool :=
  c.isAlphanum || c == '_' || c == '.' || c == '-'

/-- ASCII letter, as tested by CPython's `url[0].isascii() and
url[0].isalpha()` guard in `urlsplit`. -/
def isAsciiAlpha (c : Char) : Bool :=
  ('A' ≤ c && c ≤ 'Z') || ('a' ≤ c && c ≤ 'z')

/-- Characters CPython's `urlsplit` allows inside a URL scheme
(`scheme_chars`): ASCII letters, digits, `+`, `-`, `.`. -/
def isSchemeChar (c : Char) : Bool :=
  isAsciiAlpha c || ('0' ≤ c && c ≤ '9') || c == '+' || c == '-' || c == '.'

/-- ASCII lower-casing, as `str.lower()` acts on the (ASCII-only) scheme. -/
def lowerAscii (c : Char) : Char :=
  if 'A' ≤ c && c ≤ 'Z' then Char.ofNat (c.toNat + 32) else c

/-! The sanitizer `sanitize_filename` (src/bot.py lines 142–153) -/

/-- The `re.sub(r'^https?://', '', url)` step: remove one leading
`http://` or `https://`. -/
def stripScheme (s : List Char) : List Char :=
  if List.isPrefixOf ("https://".data) s then s.drop 8
  else if List.isPrefixOf ("http://".data) s then s.drop 7
  else s

/-- Embedding of `sanitize_filename` from src/bot.py: strip a leading protocol,
replace every character outside `\w`, `-`, `.` by `_`
(`re.sub(r'[^\w\-.]', '_', name)`), then truncate to 50 characters
(`name[:50]`; `List.take 50` is the identity when the length is ≤ 50,
exactly like the guarded slice in the source). -/
def sanitize_filename (s : List Char) : List Char :=
  (((stripScheme s).map (fun c => if keepChar c then c else '_')).take 50)

/-! The `urlparse` model and `is_valid_url` (src/bot.py lines 36–44)

`is_valid_url` only reads `result.scheme` and `result.netloc` of
`urllib.parse.urlparse`, so only that part of `urlsplit` is embedded:
the WHATWG pre-processing (lstrip of C0-control-or-space, removal of
tab/CR/LF), scheme extraction, and netloc extraction with the
"Invalid IPv6 URL" unbalanced-bracket `ValueError`.  (The full validation
of a *bracketed* host is not reproduced: a balanced-bracket netloc is
accepted as-is.  No theorem below involves a bracketed host.) -/

/-- Pre-processing of `urlsplit`: `url.lstrip(_WHATWG_C0_CONTROL_OR_SPACE)`
followed by removal of every tab, CR and LF. -/
def urlPreprocess (l : List Char) : List Char :=
  (l.dropWhile (fun c => c.toNat ≤ 32)).filter
    (fun c => !(c.toNat == 9 || c.toNat == 10 || c.toNat == 13))

/-- Scheme extraction of `urlsplit`: split at the first `:` when the part
before it is a syntactically valid scheme, lower-casing it; otherwise the
scheme is empty and the string is left whole. -/
def schemeSplit (l : List Char) : List Char × List Char :=
  match l.findIdx? (fun c => c == ':') with
  | some i =>
    if 0 < i && isAsciiAlpha (l.headD ' ') && (l.take i).all isSchemeChar then
      ((l.take i).map lowerAscii, l.drop (i + 1))
    else ([], l)
  | none => ([], l)

/-- The `(scheme, netloc)` view of `urlsplit`; `none` models the
`ValueError` raised for a netloc with unbalanced square brackets. -/
def urlsplitSN (l0 : List Char) : Option (List Char × List Char) :=
  let l := urlPreprocess l0
  let p := schemeSplit l
  if List.isPrefixOf ("//".data) p.2 then
    let netloc := (p.2.drop 2).takeWhile (fun c => !(c == '/' || c == '?' || c == '#'))
    if (netloc.contains '[') != (netloc.contains ']') then none
    else some (p.1, netloc)
  else some (p.1, [])

/-- Embedding of `is_valid_url` from src/bot.py: `urlparse` under a `try/except`
returning `False` on any exception, then
`all([result.scheme in ('http', 'https'), result.netloc])`. -/
def is_valid_url (url : List Char) : Bool :=
  match urlsplitSN url with
  | none => false
  | some sn => (sn.1 == "http".data || sn.1 == "https".data) && !sn.2.isEmpty

/-! The scan `re.findall(r'https?://[^\s]+', text)` (src/bot.py lines 58–59) -/

/-- Greedy `[^\s]+` run. -/
def takeRun (cs : List Char) : List Char :=
  cs.takeWhile (fun c => !isPySpace c)

/-- Complete a match of `https?://[^\s]+` whose scheme-and-separator part
`pre` has already been consumed, leaving `rest`: `[^\s]+` must match at
least one character, greedily. -/
def matchFrom (pre rest : List Char) : Option (List Char × List Char) :=
  if takeRun rest = [] then none
  else some (pre ++ takeRun rest, rest.drop (takeRun rest).length)

/-- Try to match the regex `https?://[^\s]+` at the head of `cs`.
The greedy `s?` makes the matcher try `https://` before `http://`, and a
string starting with one of the two never starts with the other, so the
two prefix tests are exhaustive and mutually exclusive. -/
def matchUrlAt (cs : List Char) : Option (List Char × List Char) :=
  if List.isPrefixOf ("https://".data) cs then matchFrom ("https://".data) (cs.drop 8)
  else if List.isPrefixOf ("http://".data) cs then matchFrom ("http://".data) (cs.drop 7)
  else none

/-- Left-to-right non-overlapping scan of `re.findall`: at each position
emit the match starting there and resume after it, or advance one
character.  `fuel` (instantiated with the length of the list, an upper
bound on the number of scan steps) makes the recursion structural. -/
def scanUrlsAux : Nat → List Char → List (List Char)
  | 0, _ => []
  | _ + 1, [] => []
  | fuel + 1, c :: cs =>
    match matchUrlAt (c :: cs) with
    | some (m, rest) => m :: scanUrlsAux fuel rest
    | none => scanUrlsAux fuel cs

/-- The findall scan `re.findall(r'https?://[^\s]+', text)`. -/
def scanUrls (cs : List Char) : List (List Char) :=
  scanUrlsAux cs.length cs

/-! The extractor `extract_single_url` and the classifier (src/bot.py lines 47–75) -/

/-- Model of `str.strip()`: remove leading and trailing Python whitespace. -/
def pyStrip (l : List Char) : List Char :=
  (((l.dropWhile isPySpace).reverse).dropWhile isPySpace).reverse

/-- Embedding of `extract_single_url` from src/bot.py: `None` for falsy text; find all
`https?://[^\s]+` matches; `None` unless exactly one; `None` unless the
stripped text *is* that match; `None` unless `is_valid_url`; else the
match.  (The source's early-`return None` chain is written as nested
conditionals with the same branches.) -/
def extract_single_url (text : List Char) : Option (List Char) :=
  if text = [] then none
  else
    match scanUrls text with
    | [url] =>
      if pyStrip text = url then
        (if is_valid_url url then some url else none)
      else none
    | _ => none

/-- The `ClassifiedIntent` variant type of the specification's data model. -/
inductive ClassifiedIntent where
  | SingleURL (url : List Char)
  | NotRecognized
deriving DecidableEq

/-- The specification's `classify`: absent text is `NotRecognized`;
otherwise the result of `extract_single_url`. -/
def classify (text : Option (List Char)) : ClassifiedIntent :=
  match text with
  | none => ClassifiedIntent.NotRecognized
  | some t =>
    match extract_single_url t with
    | some u => ClassifiedIntent.SingleURL u
    | none => ClassifiedIntent.NotRecognized

/-! Transport effects and handler embeddings (src/bot.py lines 175–342)

A handler is embedded as a function from an *environment* — one Boolean
per external call, `true` meaning the call returns normally and `false`
meaning it raises — to the list of calls the handler attempts, in order.
A raising call still appears in the trace (the attempt was made); the
exception then transfers control exactly as the source's `try/except`
blocks do: a producer exception reaches the inner `except` (edit the
status message and return), any other exception reaches the handler-level
`except` (send a generic failure reply). -/

/-- One attempted transport call. `sendStatus` is the `message.answer`
whose returned handle the source binds to `status_msg`; `answer` is any
other plain `message.answer`; `sendDocument` is `message.answer_document`
with the attachment's filename and optional caption; `editStatus` /
`deleteStatus` act on the bound `status_msg`; `getFile` / `downloadFile`
are the attachment-resolution calls of the image handlers. -/
inductive Effect where
  | answer (text : List Char)
  | sendStatus (text : List Char)
  | editStatus (text : List Char)
  | deleteStatus
  | sendDocument (filename : List Char) (caption : Option (List Char))
  | getFile
  | downloadFile
deriving DecidableEq

/-- Failure environment for `handle_text`, one flag per external call in
source order: the rejection `answer`, the status `answer`,
`generate_qr_svg`, `generate_qr_png`, `status_msg.edit_text`, the two
`answer_document` calls, `status_msg.delete`. -/
structure TextEnv where
  rejectOk : Bool
  statusOk : Bool
  svgOk : Bool
  pngOk : Bool
  editOk : Bool
  sendSvgOk : Bool
  sendPngOk : Bool
  deleteOk : Bool
deriving DecidableEq

/-- Failure environment for `handle_photo` / `handle_document`, one flag
per external call in source order: the status `answer`, `bot.get_file`,
`bot.download_file`, `remove_background`, `status_msg.edit_text`,
`answer_document`, `status_msg.delete`. -/
structure MediaEnv where
  statusOk : Bool
  getFileOk : Bool
  downloadOk : Bool
  removeOk : Bool
  editOk : Bool
  sendDocOk : Bool
  deleteOk : Bool
deriving DecidableEq

/-- Reply text of the rejection branch of `handle_text`. -/
def rejectionText : List Char :=
  "❌ Пожалуйста, отправьте одну корректную ссылку (начинается с http:// или https://).\n\nИли отправьте изображение для удаления фона! 🖼️".data

/-- Status text of `handle_text`. -/
def generatingText : List Char := "⏳ Генерирую QR-коды...".data

/-- Text `handle_text` edits the status message to when a producer raises. -/
def qrGenFailText : List Char :=
  "❌ Произошла ошибка при генерации QR-кода. Попробуйте еще раз.".data

/-- Generic failure reply of `handle_text`'s handler-level `except`. -/
def textGenericFailText : List Char :=
  "❌ Произошла непредвиденная ошибка. Пожалуйста, попробуйте позже.".data

/-- Status text of `handle_photo` and `handle_document`. -/
def processingText : List Char := "⏳ Обрабатываю изображение и удаляю фон...".data

/-- Text `handle_photo` edits the status message to when
`remove_background` raises. -/
def photoRemoveFailText : List Char :=
  "❌ Произошла ошибка при обработке изображения. Попробуйте другое фото или повторите позже.".data

/-- Generic failure reply of `handle_photo`'s handler-level `except`. -/
def photoGenericFailText : List Char :=
  "❌ Произошла непредвиденная ошибка при обработке изображения.".data

/-- Text `handle_document` edits the status message to when
`remove_background` raises. -/
def docRemoveFailText : List Char :=
  "❌ Произошла ошибка при обработке изображения. Попробуйте другое фото.".data

/-- Generic failure reply of `handle_document`'s handler-level `except`. -/
def docGenericFailText : List Char :=
  "❌ Произошла ошибка при обработке изображения.".data

/-- Success caption of both image handlers. -/
def bgSuccessCaption : List Char :=
  "✅ Фон удален! Изображение с прозрачным фоном в формате PNG.".data

/-- Caption of the SVG artifact: `f"📊 QR-код для: {url}"`. -/
def svgCaption (url : List Char) : List Char := "📊 QR-код для: ".data ++ url

/-- Filename `f"{base_filename}_qr-code.svg"` with `base_filename = sanitize_filename(url)`. -/
def qrFilenameSvg (url : List Char) : List Char :=
  sanitize_filename url ++ "_qr-code.svg".data

/-- Filename `f"{base_filename}_qr-code.png"`. -/
def qrFilenamePng (url : List Char) : List Char :=
  sanitize_filename url ++ "_qr-code.png".data

/-- Filename `f"no_background_{photo.file_unique_id}.png"`. -/
def noBgFilename (fileUniqueId : List Char) : List Char :=
  "no_background_".data ++ fileUniqueId ++ ".png".data

/-- Embedding of `handle_text` (src/bot.py lines 282–342) as an effect trace.
Branches, in source order: absent text returns silently; empty text
returns silently (`if not message.text: return`); `NotRecognized` text
gets the rejection reply (if that `answer` raises, the handler-level
`except` sends the generic reply); otherwise the status message is sent,
both producers run under the inner `try` (an exception edits the status
and returns), then the SVG and PNG documents are sent and the status
message deleted — an exception in any of these post-producer calls falls
through to the handler-level `except`, which only sends the generic
reply. -/
def handle_text (env : TextEnv) (text : Option (List Char)) : List Effect :=
  match text with
  | none => []
  | some t =>
    if t = [] then []
    else
      match extract_single_url t with
      | none =>
        if env.rejectOk then [Effect.answer rejectionText]
        else [Effect.answer rejectionText, Effect.answer textGenericFailText]
      | some url =>
        if !env.statusOk then
          [Effect.sendStatus generatingText, Effect.answer textGenericFailText]
        else if !env.svgOk || !env.pngOk then
          (if env.editOk then
            [Effect.sendStatus generatingText, Effect.editStatus qrGenFailText]
          else
            [Effect.sendStatus generatingText, Effect.editStatus qrGenFailText,
             Effect.answer textGenericFailText])
        else if !env.sendSvgOk then
          [Effect.sendStatus generatingText,
           Effect.sendDocument (qrFilenameSvg url) (some (svgCaption url)),
           Effect.answer textGenericFailText]
        else if !env.sendPngOk then
          [Effect.sendStatus generatingText,
           Effect.sendDocument (qrFilenameSvg url) (some (svgCaption url)),
           Effect.sendDocument (qrFilenamePng url) none,
           Effect.answer textGenericFailText]
        else if !env.deleteOk then
          [Effect.sendStatus generatingText,
           Effect.sendDocument (qrFilenameSvg url) (some (svgCaption url)),
           Effect.sendDocument (qrFilenamePng url) none,
           Effect.deleteStatus,
           Effect.answer textGenericFailText]
        else
          [Effect.sendStatus generatingText,
           Effect.sendDocument (qrFilenameSvg url) (some (svgCaption url)),
           Effect.sendDocument (qrFilenamePng url) none,
           Effect.deleteStatus]

/-- Embedding of `handle_photo` (src/bot.py lines 175–225) as an effect trace, with the
same exception discipline: only `remove_background` is under the inner
`try`; a failure of any transport call reaches the handler-level `except`
and the status message is then left untouched. -/
def handle_photo (env : MediaEnv) (fileUniqueId : List Char) : List Effect :=
  if !env.statusOk then
    [Effect.sendStatus processingText, Effect.answer photoGenericFailText]
  else if !env.getFileOk then
    [Effect.sendStatus processingText, Effect.getFile,
     Effect.answer photoGenericFailText]
  else if !env.downloadOk then
    [Effect.sendStatus processingText, Effect.getFile, Effect.downloadFile,
     Effect.answer photoGenericFailText]
  else if !env.removeOk then
    (if env.editOk then
      [Effect.sendStatus processingText, Effect.getFile, Effect.downloadFile,
       Effect.editStatus photoRemoveFailText]
    else
      [Effect.sendStatus processingText, Effect.getFile, Effect.downloadFile,
       Effect.editStatus photoRemoveFailText, Effect.answer photoGenericFailText])
  else if !env.sendDocOk then
    [Effect.sendStatus processingText, Effect.getFile, Effect.downloadFile,
     Effect.sendDocument (noBgFilename fileUniqueId) (some bgSuccessCaption),
     Effect.answer photoGenericFailText]
  else if !env.deleteOk then
    [Effect.sendStatus processingText, Effect.getFile, Effect.downloadFile,
     Effect.sendDocument (noBgFilename fileUniqueId) (some bgSuccessCaption),
     Effect.deleteStatus, Effect.answer photoGenericFailText]
  else
    [Effect.sendStatus processingText, Effect.getFile, Effect.downloadFile,
     Effect.sendDocument (noBgFilename fileUniqueId) (some bgSuccessCaption),
     Effect.deleteStatus]

/-- Python `document.file_name or "image"`: the `or` picks `"image"` for an
absent *or empty* file name. -/
def docOriginalName (fileName : Option (List Char)) : List Char :=
  match fileName with
  | none => "image".data
  | some n => if n = [] then "image".data else n

/-- Model of `original_name.rsplit('.', 1)[0]`: everything before the last dot,
or the whole name when it has no dot. -/
def stripExt (name : List Char) : List Char :=
  if '.' ∈ name then (((name.reverse).dropWhile (fun c => !(c == '.'))).drop 1).reverse
  else name

/-- Filename `f"{base_name}_no_bg.png"`. -/
def noBgDocFilename (fileName : Option (List Char)) : List Char :=
  stripExt (docOriginalName fileName) ++ "_no_bg.png".data

/-- Embedding of `handle_document` (src/bot.py lines 228–279) as an effect trace.
The guard `document.mime_type and document.mime_type.startswith('image/')`
sends every event with an absent, empty or non-`image/` declared media
type to the silent `else: pass` branch. -/
def handle_document (env : MediaEnv) (mimeType : Option (List Char))
    (fileName : Option (List Char)) : List Effect :=
  match mimeType with
  | none => []
  | some m =>
    if m ≠ [] ∧ List.isPrefixOf ("image/".data) m then
      (if !env.statusOk then
        [Effect.sendStatus processingText, Effect.answer docGenericFailText]
      else if !env.getFileOk then
        [Effect.sendStatus processingText, Effect.getFile,
         Effect.answer docGenericFailText]
      else if !env.downloadOk then
        [Effect.sendStatus processingText, Effect.getFile, Effect.downloadFile,
         Effect.answer docGenericFailText]
      else if !env.removeOk then
        (if env.editOk then
          [Effect.sendStatus processingText, Effect.getFile, Effect.downloadFile,
           Effect.editStatus docRemoveFailText]
        else
          [Effect.sendStatus processingText, Effect.getFile, Effect.downloadFile,
           Effect.editStatus docRemoveFailText, Effect.answer docGenericFailText])
      else if !env.sendDocOk then
        [Effect.sendStatus processingText, Effect.getFile, Effect.downloadFile,
         Effect.sendDocument (noBgDocFilename fileName) (some bgSuccessCaption),
         Effect.answer docGenericFailText]
      else if !env.deleteOk then
        [Effect.sendStatus processingText, Effect.getFile, Effect.downloadFile,
         Effect.sendDocument (noBgDocFilename fileName) (some bgSuccessCaption),
         Effect.deleteStatus, Effect.answer docGenericFailText]
      else
        [Effect.sendStatus processingText, Effect.getFile, Effect.downloadFile,
         Effect.sendDocument (noBgDocFilename fileName) (some bgSuccessCaption),
         Effect.deleteStatus])
    else []

/-! Trace observations used by the claims -/

/-- A status-message creation. -/
def isStatusCreate (e : Effect) : Bool :=
  match e with
  | Effect.sendStatus _ => true
  | _ => false

/-- A status-message resolution (edit or delete). -/
def isResolveStep (e : Effect) : Bool :=
  match e with
  | Effect.editStatus _ => true
  | Effect.deleteStatus => true
  | _ => false

/-- An artifact send (`answer_document`). -/
def isArtifactSend (e : Effect) : Bool :=
  match e with
  | Effect.sendDocument _ _ => true
  | _ => false

/-- Whether a trace created a status message. -/
def statusCreated (tr : List Effect) : Bool := tr.any isStatusCreate

/-- How many times a trace edited or deleted the status message. -/
def resolveCount (tr : List Effect) : Nat := (tr.filter isResolveStep).length

/-- How many artifacts a trace sent. -/
def artifactCount (tr : List Effect) : Nat := (tr.filter isArtifactSend).length

/-- How many rejection replies a trace sent. -/
def rejectionCount (tr : List Effect) : Nat :=
  (tr.filter (fun e => e == Effect.answer rejectionText)).length

/-- All transport calls of `handle_text` return normally (the two QR
producers are unconstrained). -/
def textTransportOk (e : TextEnv) : Bool :=
  e.rejectOk && e.statusOk && e.editOk && e.sendSvgOk && e.sendPngOk && e.deleteOk

/-- Every call of `handle_text` returns normally. -/
def textEnvOk (e : TextEnv) : Bool :=
  e.rejectOk && e.statusOk && e.svgOk && e.pngOk && e.editOk &&
  e.sendSvgOk && e.sendPngOk && e.deleteOk

/-- All transport calls of the image handlers return normally
(`remove_background` is unconstrained). -/
def mediaTransportOk (e : MediaEnv) : Bool :=
  e.statusOk && e.getFileOk && e.downloadOk && e.editOk && e.sendDocOk && e.deleteOk

/-- The all-succeed text environment. -/
def textEnvAllOk : TextEnv := TextEnv.mk true true true true true true true true

/-- The all-succeed media environment. -/
def mediaEnvAllOk : MediaEnv := MediaEnv.mk true true true true true true true

/-- A bare absolute http(s) URL token with a non-empty host, in the sense
of claim C7: it starts with `http://` or `https://`, contains no Python
whitespace, and `is_valid_url` accepts it (scheme exactly `http`/`https`,
non-empty netloc, no parse error). -/
def wellFormedHttpUrl (u : List Char) : Bool :=
  (List.isPrefixOf ("http://".data) u || List.isPrefixOf ("https://".data) u) &&
  u.all (fun c => !isPySpace c) && is_valid_url u

/-! Lemmas about the sanitizer -/

/-- Bridge between the Boolean prefix test and the prefix relation. -/
theorem isPrefixOf_eq_true_iff (l1 l2 : List Char) :
    List.isPrefixOf l1 l2 = true ↔ l1 <+: l2 :=
  List.isPrefixOf_iff_prefix


/-- Every character of a sanitizer output is kept by the regex class:
a kept input character satisfies `keepChar` by definition, and the
replacement `_` is a word character. -/
theorem sanitize_filename_mem_keep (s : List Char) :
    ∀ c ∈ sanitize_filename s, keepChar c = true := by
  intro c hc
  unfold sanitize_filename at hc
  have hc2 : c ∈ (stripScheme s).map (fun c => if keepChar c then c else '_') :=
    List.mem_of_mem_take hc
  rcases List.mem_map.1 hc2 with ⟨a, _, rfl⟩
  by_cases h : keepChar a = true
  · simp [h]
  · rw [if_neg h]
    decide

/-- A list whose characters are all kept never starts with `http://` or
`https://` (it cannot contain `:`), so `stripScheme` leaves it alone. -/
theorem stripScheme_of_all_keep (l : List Char)
    (h : ∀ c ∈ l, keepChar c = true) : stripScheme l = l := by
  unfold stripScheme
  have hcol : (':' : Char) ∉ l := by
    intro hm
    have := h ':' hm
    simp [keepChar, isWordChar] at this
  rw [if_neg, if_neg]
  · intro hpre
    exact hcol (((isPrefixOf_eq_true_iff _ _).1 hpre).subset (by decide))
  · intro hpre
    exact hcol (((isPrefixOf_eq_true_iff _ _).1 hpre).subset (by decide))

/-- A list of kept characters maps to itself under the replacement. -/
theorem map_replace_of_all_keep (l : List Char)
    (h : ∀ c ∈ l, keepChar c = true) :
    l.map (fun c => if keepChar c then c else '_') = l := by
  conv_rhs => rw [← List.map_id l]
  exact List.map_congr_left (fun a ha => by simp [h a ha])

/-- The sanitizer output never exceeds 50 characters. -/
theorem sanitize_filename_length_le (s : List Char) :
    (sanitize_filename s).length ≤ 50 := by
  unfold sanitize_filename
  exact List.length_take_le 50 _

/-- A list of kept characters of length at most 50 is a fixed point of the
sanitizer: the protocol strip, the replacement and the truncation are all
the identity on it. -/
theorem sanitize_filename_fixed (l : List Char)
    (h : ∀ c ∈ l, keepChar c = true) (hlen : l.length ≤ 50) :
    sanitize_filename l = l := by
  unfold sanitize_filename
  rw [stripScheme_of_all_keep _ h, map_replace_of_all_keep _ h]
  exact List.take_of_length_le hlen

/-- The sanitizer is idempotent on its own output. -/
theorem sanitize_filename_idem (s : List Char) :
    sanitize_filename (sanitize_filename s) = sanitize_filename s :=
  sanitize_filename_fixed _ (sanitize_filename_mem_keep s)
    (sanitize_filename_length_le s)

/-- On ASCII characters (the only non-ASCII word characters of the model
lie at U+0410 and above) a kept character lies in `[A-Za-z0-9_.-]`. -/
theorem keepChar_ascii (c : Char) (ha : c.toNat < 128)
    (hk : keepChar c = true) : asciiAllowed c = true := by
  simp only [keepChar, isWordChar, Bool.or_eq_true, Bool.and_eq_true,
    beq_iff_eq, decide_eq_true_eq] at hk
  have hk2 : c.isAlphanum = true ∨ c = '_' ∨ (1040 ≤ c.toNat ∧ c.toNat ≤ 1103) ∨
      c = '-' ∨ c = '.' := by tauto
  rcases hk2 with h | h | ⟨h1, _⟩ | h | h
  · simp [asciiAllowed, h]
  · subst h; decide
  · omega
  · subst h; decide
  · subst h; decide

/-- The helper `stripScheme` only ever drops leading characters, so its output characters come
from the input. -/
theorem stripScheme_subset (s : List Char) : stripScheme s ⊆ s := by
  unfold stripScheme
  split
  · exact List.drop_subset 8 s
  · split
    · exact List.drop_subset 7 s
    · exact fun _ h => h

/-- Claim C2, counterexample: the source's character class is Python's
Unicode `\w` plus `-` and `.`, not ASCII `[A-Za-z0-9_.-]`.  The Cyrillic
letter `я` (U+044F) is a `\w` character, so `sanitize_filename` keeps it
unchanged, yet it is outside `[A-Za-z0-9_.-]` — refuting the claim that
every output character lies in that set and that every character outside
it is replaced by an underscore. -/
theorem claim_C2_counterexample :
    sanitize_filename ("я".data) = "я".data ∧
    'я' ∈ sanitize_filename ("я".data) ∧
    asciiAllowed 'я' = false := by decide

/-- Claim C2 (amended): every character of `sanitize(s)` is a Python word
character (`\w`), a hyphen or a dot — every character outside that set is
replaced by an underscore — and when the input is pure ASCII the output
does consist only of characters from `[A-Za-z0-9_.-]`. -/
theorem claim_C2_amended (s : List Char) :
    (sanitize_filename s).all keepChar = true ∧
    (s.all (fun c => c.toNat < 128) = true →
      (sanitize_filename s).all asciiAllowed = true) := by
  constructor
  · exact List.all_eq_true.2 (sanitize_filename_mem_keep s)
  · intro ha
    simp only [List.all_eq_true, decide_eq_true_eq] at ha
    rw [List.all_eq_true]
    intro c hc
    refine keepChar_ascii c ?_ (sanitize_filename_mem_keep s c hc)
    have hc2 : c ∈ (stripScheme s).map (fun c => if keepChar c then c else '_') :=
      List.mem_of_mem_take hc
    rcases List.mem_map.1 hc2 with ⟨a, hmem, rfl⟩
    by_cases h : keepChar a = true
    · rw [if_pos h]
      exact ha a (stripScheme_subset s hmem)
    · rw [if_neg h]
      decide

/-- Claim C2 witness: a concrete ASCII input whose sanitized form the
amended theorem confines to the kept set and to `[A-Za-z0-9_.-]`. -/
theorem claim_C2_witness :
    (sanitize_filename ("https://example.com/a b".data)).all keepChar = true ∧
    (sanitize_filename ("https://example.com/a b".data)).all asciiAllowed = true :=
  ⟨(claim_C2_amended _).1, (claim_C2_amended _).2 (by decide)⟩

/-- Claim C9: `sanitize` is a total deterministic function (it is a Lean
function on `List Char`); its output never exceeds 50 characters; and
re-applying it to its own output changes nothing. -/
theorem claim_C9 (s : List Char) :
    (sanitize_filename s).length ≤ 50 ∧
    sanitize_filename (sanitize_filename s) = sanitize_filename s :=
  ⟨sanitize_filename_length_le s, sanitize_filename_idem s⟩

/-! Lemmas about the classifier -/

/-- What the guards of `extract_single_url` guarantee when it returns a
URL: the scan found exactly that one match, the stripped text equals it,
and it passed `is_valid_url`. -/
theorem extract_single_url_some (t u : List Char)
    (h : extract_single_url t = some u) :
    scanUrls t = [u] ∧ pyStrip t = u ∧ is_valid_url u = true := by
  unfold extract_single_url at h
  split at h
  · cases h
  · split at h
    · split at h
      · split at h
        · rename_i url heq h1 h2
          injection h with h3
          subst h3
          exact ⟨heq, h1, h2⟩
        · cases h
      · cases h
    · cases h

/-- Unpacking `is_valid_url`: a successful parse with scheme `http` or
`https` and a non-empty netloc. -/
theorem is_valid_url_spec (u : List Char) (h : is_valid_url u = true) :
    ∃ scheme netloc, urlsplitSN u = some (scheme, netloc) ∧
      (scheme = "http".data ∨ scheme = "https".data) ∧ netloc ≠ [] := by
  unfold is_valid_url at h
  rcases hs : urlsplitSN u with _ | ⟨s, n⟩
  · rw [hs] at h; cases h
  · rw [hs] at h
    simp only [Bool.and_eq_true, Bool.or_eq_true, beq_iff_eq,
      Bool.not_eq_true', List.isEmpty_eq_false] at h
    exact ⟨s, n, rfl, h.1, h.2⟩

/-- Claim C6: whenever classification accepts, the accepted URL is exactly
the whitespace-stripped message text (so a URL embedded in a longer
sentence is never accepted), it parses with scheme exactly `http` or
`https`, and its host (netloc) component is non-empty. -/
theorem claim_C6 (t u : List Char)
    (h : classify (some t) = ClassifiedIntent.SingleURL u) :
    u = pyStrip t ∧
    ∃ scheme netloc, urlsplitSN u = some (scheme, netloc) ∧
      (scheme = "http".data ∨ scheme = "https".data) ∧ netloc ≠ [] := by
  have hx : extract_single_url t = some u := by
    rcases he : extract_single_url t with _ | v
    · simp only [classify, he] at h
      cases h
    · simp only [classify, he] at h
      injection h with h2
      rw [h2]
  obtain ⟨_, h1, h2⟩ := extract_single_url_some t u hx
  exact ⟨h1.symm, is_valid_url_spec u h2⟩

/-- Claim C6 witness: the classifier accepts `https://example.com`, which
is its own stripped text, has scheme `https` and host `example.com`. -/
theorem claim_C6_witness :
    "https://example.com".data = pyStrip ("https://example.com".data) ∧
    ∃ scheme netloc,
      urlsplitSN ("https://example.com".data) = some (scheme, netloc) ∧
      (scheme = "http".data ∨ scheme = "https".data) ∧ netloc ≠ [] :=
  claim_C6 _ _ (by decide)

/-- Claim C8: when the left-to-right non-overlapping scan for
`https?://[^\s]+` finds zero or several matches — any number other than
one — classification yields `NotRecognized`. -/
theorem claim_C8 (t : List Char) (h : (scanUrls t).length ≠ 1) :
    classify (some t) = ClassifiedIntent.NotRecognized := by
  rcases he : extract_single_url t with _ | u
  · simp only [classify, he]
  · refine absurd ?_ h
    rw [(extract_single_url_some t u he).1]
    rfl

/-- Claim C8 witness: `"hello"` has zero matches and is rejected. -/
theorem claim_C8_witness :
    (scanUrls ("hello".data)).length ≠ 1 ∧
    classify (some ("hello".data)) = ClassifiedIntent.NotRecognized :=
  ⟨by decide, claim_C8 _ (by decide)⟩

/-! Lemmas about the findall scan -/

/-- A completed match leaves a suffix of what it was given. -/
theorem matchFrom_length (pre rest m r : List Char)
    (h : matchFrom pre rest = some (m, r)) : r.length ≤ rest.length := by
  unfold matchFrom at h
  split at h
  · cases h
  · injection h with h1
    cases h1
    rw [List.length_drop]
    omega

/-- A match at the head of `cs` consumes at least the scheme part, so the
remainder is strictly shorter. -/
theorem matchUrlAt_length (cs m r : List Char)
    (h : matchUrlAt cs = some (m, r)) : r.length < cs.length := by
  unfold matchUrlAt at h
  split at h
  · rename_i hpre
    have h8 : 8 ≤ cs.length := by
      have hl := ((isPrefixOf_eq_true_iff _ _).1 hpre).length_le
      rw [show ("https://".data).length = 8 from rfl] at hl
      exact hl
    have hle := matchFrom_length _ _ _ _ h
    rw [List.length_drop] at hle
    omega
  · split at h
    · rename_i hpre
      have h7 : 7 ≤ cs.length := by
        have hl := ((isPrefixOf_eq_true_iff _ _).1 hpre).length_le
        rw [show ("http://".data).length = 7 from rfl] at hl
        exact hl
      have hle := matchFrom_length _ _ _ _ h
      rw [List.length_drop] at hle
      omega
    · cases h

/-- The fuel of `scanUrlsAux` is irrelevant as long as it bounds the list
length: every step consumes at least one character and one unit of fuel. -/
theorem scanUrlsAux_congr (f1 : Nat) :
    ∀ (f2 : Nat) (cs : List Char), cs.length ≤ f1 → cs.length ≤ f2 →
      scanUrlsAux f1 cs = scanUrlsAux f2 cs := by
  induction f1 with
  | zero =>
    intro f2 cs h1 _
    have hnil : cs = [] := List.length_eq_zero.1 (Nat.le_zero.1 h1)
    subst hnil
    cases f2 <;> rfl
  | succ f1 ih =>
    intro f2 cs h1 h2
    cases cs with
    | nil => cases f2 <;> rfl
    | cons c tl =>
      cases f2 with
      | zero => simp at h2
      | succ f2 =>
        simp only [List.length_cons] at h1 h2
        rcases hm : matchUrlAt (c :: tl) with _ | ⟨m, rest⟩
        · simp only [scanUrlsAux, hm]
          exact ih f2 tl (by omega) (by omega)
        · have hlt := matchUrlAt_length _ _ _ hm
          simp only [List.length_cons] at hlt
          simp only [scanUrlsAux, hm]
          rw [ih f2 rest (by omega) (by omega)]

/-- Scan step for a position where the regex does not match. -/
theorem scanUrls_cons_none (c : Char) (cs : List Char)
    (h : matchUrlAt (c :: cs) = none) : scanUrls (c :: cs) = scanUrls cs := by
  unfold scanUrls
  simp only [List.length_cons]
  simp only [scanUrlsAux, h]

/-- Scan step for a position where the regex matches: emit the match and
resume after it. -/
theorem scanUrls_cons_some (l m rest : List Char) (hne : l ≠ [])
    (h : matchUrlAt l = some (m, rest)) : scanUrls l = m :: scanUrls rest := by
  obtain ⟨c, cs, rfl⟩ := List.exists_cons_of_ne_nil hne
  have hlt := matchUrlAt_length _ _ _ h
  simp only [List.length_cons] at hlt
  unfold scanUrls
  simp only [List.length_cons]
  simp only [scanUrlsAux, h]
  congr 1
  exact scanUrlsAux_congr cs.length rest.length rest (by omega) (Nat.le_refl _)

/-- The regex cannot match at a whitespace character (it would have to
start with `h`). -/
theorem matchUrlAt_space (c : Char) (l : List Char) (hc : isPySpace c = true) :
    matchUrlAt (c :: l) = none := by
  have hch : ('h' == c) = false := by
    refine beq_eq_false_iff_ne.2 (fun he => absurd hc ?_)
    rw [← he]
    decide
  have hA : List.isPrefixOf ("https://".data) (c :: l) = false := by
    rw [show ("https://".data) = 'h' :: "ttps://".data from rfl]
    simp [List.isPrefixOf, hch]
  have hB : List.isPrefixOf ("http://".data) (c :: l) = false := by
    rw [show ("http://".data) = 'h' :: "ttp://".data from rfl]
    simp [List.isPrefixOf, hch]
  simp [matchUrlAt, hA, hB]

/-- Leading whitespace contributes nothing to the scan. -/
theorem scanUrls_space_append (ws : List Char)
    (h : ∀ c ∈ ws, isPySpace c = true) (v : List Char) :
    scanUrls (ws ++ v) = scanUrls v := by
  induction ws with
  | nil => rfl
  | cons c ws ih =>
    have hc := h c (List.mem_cons_self c ws)
    rw [List.cons_append, scanUrls_cons_none _ _ (matchUrlAt_space c _ hc)]
    exact ih (fun d hd => h d (List.mem_cons_of_mem c hd))

/-- A whitespace-only text has no matches. -/
theorem scanUrls_space (ws : List Char) (h : ∀ c ∈ ws, isPySpace c = true) :
    scanUrls ws = [] := by
  have h0 := scanUrls_space_append ws h []
  rw [List.append_nil] at h0
  exact h0

/-- Appending: `takeWhile` passes over a block that satisfies the predicate. -/
theorem takeWhile_append_all (p : Char → Bool) (xs ys : List Char)
    (h : ∀ c ∈ xs, p c = true) :
    (xs ++ ys).takeWhile p = xs ++ ys.takeWhile p := by
  induction xs with
  | nil => rfl
  | cons a xs ih =>
    rw [List.cons_append, List.takeWhile_cons_of_pos (h a (List.mem_cons_self a xs)),
      ih (fun d hd => h d (List.mem_cons_of_mem a hd)), List.cons_append]

/-- A list that everywhere fails the predicate gives an empty `takeWhile`. -/
theorem takeWhile_nil_of_all_false (p : Char → Bool) (xs : List Char)
    (h : ∀ c ∈ xs, p c = false) : xs.takeWhile p = [] := by
  cases xs with
  | nil => rfl
  | cons a xs =>
    exact List.takeWhile_cons_of_neg (by simp [h a (List.mem_cons_self a xs)])

/-- A whitespace block in front of anything is removed by `dropWhile`. -/
theorem dropWhile_space_append (xs ys : List Char)
    (h : ∀ c ∈ xs, isPySpace c = true) :
    (xs ++ ys).dropWhile isPySpace = ys.dropWhile isPySpace := by
  induction xs with
  | nil => rfl
  | cons a xs ih =>
    rw [List.cons_append, List.dropWhile_cons_of_pos (h a (List.mem_cons_self a xs))]
    exact ih (fun d hd => h d (List.mem_cons_of_mem a hd))

/-- A list of non-whitespace characters is kept whole by `dropWhile`. -/
theorem dropWhile_of_all_false (xs : List Char)
    (h : ∀ c ∈ xs, isPySpace c = false) : xs.dropWhile isPySpace = xs := by
  cases xs with
  | nil => rfl
  | cons a xs =>
    exact List.dropWhile_cons_of_neg (by simp [h a (List.mem_cons_self a xs)])

/-- Stripping whitespace, then a whitespace-free token, then whitespace,
leaves exactly the token. -/
theorem pyStrip_sandwich (ws1 ws2 u : List Char)
    (h1 : ∀ c ∈ ws1, isPySpace c = true) (h2 : ∀ c ∈ ws2, isPySpace c = true)
    (hu : ∀ c ∈ u, isPySpace c = false) (hne : u ≠ []) :
    pyStrip (ws1 ++ u ++ ws2) = u := by
  have step1 : (ws1 ++ u ++ ws2).dropWhile isPySpace = u ++ ws2 := by
    rw [List.append_assoc, dropWhile_space_append ws1 _ h1]
    obtain ⟨c, u2, rfl⟩ := List.exists_cons_of_ne_nil hne
    rw [List.cons_append]
    exact List.dropWhile_cons_of_neg (by simp [hu c (List.mem_cons_self c u2)])
  have hws2r : ∀ c ∈ ws2.reverse, isPySpace c = true :=
    fun c hc => h2 c (List.mem_reverse.1 hc)
  have hur : ∀ c ∈ u.reverse, isPySpace c = false :=
    fun c hc => hu c (List.mem_reverse.1 hc)
  unfold pyStrip
  rw [step1, List.reverse_append, dropWhile_space_append _ _ hws2r,
    dropWhile_of_all_false _ hur, List.reverse_reverse]

/-- The greedy `[^\s]+` starting at a whitespace-free token followed by
whitespace matches exactly the token. -/
theorem matchFrom_run (pre tail ws2 : List Char)
    (htail : ∀ c ∈ tail, isPySpace c = false) (hne : tail ≠ [])
    (hws : ∀ c ∈ ws2, isPySpace c = true) :
    matchFrom pre (tail ++ ws2) = some (pre ++ tail, ws2) := by
  have hrun : takeRun (tail ++ ws2) = tail := by
    unfold takeRun
    rw [takeWhile_append_all _ tail ws2 (fun c hc => by simp [htail c hc]),
      takeWhile_nil_of_all_false _ ws2 (fun c hc => by simp [hws c hc]),
      List.append_nil]
  unfold matchFrom
  rw [hrun, if_neg hne, List.drop_left]

/-- A full regex match at an `https://` token surrounded as in C7. -/
theorem matchUrlAt_url_https (tail ws2 : List Char)
    (htail : ∀ c ∈ tail, isPySpace c = false) (hne : tail ≠ [])
    (hws : ∀ c ∈ ws2, isPySpace c = true) :
    matchUrlAt (("https://".data ++ tail) ++ ws2) =
      some ("https://".data ++ tail, ws2) := by
  have hp : List.isPrefixOf ("https://".data)
      ("https://".data ++ (tail ++ ws2)) = true :=
    (isPrefixOf_eq_true_iff _ _).2 ⟨tail ++ ws2, rfl⟩
  unfold matchUrlAt
  rw [List.append_assoc, if_pos hp,
    show (8 : Nat) = ("https://".data).length from rfl, List.drop_left]
  exact matchFrom_run _ tail ws2 htail hne hws

/-- A full regex match at an `http://` token surrounded as in C7; the
`https://` branch of the matcher fails first (`s` against `:`). -/
theorem matchUrlAt_url_http (tail ws2 : List Char)
    (htail : ∀ c ∈ tail, isPySpace c = false) (hne : tail ≠ [])
    (hws : ∀ c ∈ ws2, isPySpace c = true) :
    matchUrlAt (("http://".data ++ tail) ++ ws2) =
      some ("http://".data ++ tail, ws2) := by
  have hA : List.isPrefixOf ("https://".data)
      ("http://".data ++ (tail ++ ws2)) = false := by
    rw [show ("http://".data ++ (tail ++ ws2)) =
        'h' :: 't' :: 't' :: 'p' :: ':' :: '/' :: '/' :: (tail ++ ws2) from rfl,
      show ("https://".data) =
        'h' :: 't' :: 't' :: 'p' :: 's' :: ':' :: '/' :: '/' :: ([] : List Char) from rfl]
    simp [List.isPrefixOf, show (('s' : Char) == ':') = false from rfl]
  have hp : List.isPrefixOf ("http://".data)
      ("http://".data ++ (tail ++ ws2)) = true :=
    (isPrefixOf_eq_true_iff _ _).2 ⟨tail ++ ws2, rfl⟩
  unfold matchUrlAt
  rw [List.append_assoc, hA]
  rw [if_neg (by simp), if_pos hp,
    show (7 : Nat) = ("http://".data).length from rfl, List.drop_left]
  exact matchFrom_run _ tail ws2 htail hne hws

/-- The complete scan of `whitespace ++ token ++ whitespace` finds exactly
the one token, provided the matcher accepts the token in place. -/
theorem scanUrls_sandwich (ws1 u ws2 : List Char)
    (h1 : ∀ c ∈ ws1, isPySpace c = true) (h2 : ∀ c ∈ ws2, isPySpace c = true)
    (hne : u ≠ [])
    (hm : matchUrlAt (u ++ ws2) = some (u, ws2)) :
    scanUrls (ws1 ++ u ++ ws2) = [u] := by
  rw [List.append_assoc, scanUrls_space_append ws1 h1 (u ++ ws2),
    scanUrls_cons_some (u ++ ws2) u ws2 (by simp [hne]) hm,
    scanUrls_space ws2 h2]

/-- Claim C7: a message that is exactly one well-formed absolute http(s)
URL with a non-empty host, surrounded only by whitespace, classifies as
`SingleURL` of that URL with the whitespace removed. -/
theorem claim_C7 (ws1 ws2 u : List Char)
    (h1 : ∀ c ∈ ws1, isPySpace c = true)
    (h2 : ∀ c ∈ ws2, isPySpace c = true)
    (hu : wellFormedHttpUrl u = true) :
    classify (some (ws1 ++ u ++ ws2)) = ClassifiedIntent.SingleURL u := by
  simp only [wellFormedHttpUrl, Bool.and_eq_true, Bool.or_eq_true] at hu
  obtain ⟨⟨hpre, hall⟩, hval⟩ := hu
  have hnosp : ∀ c ∈ u, isPySpace c = false := by
    intro c hc
    have hac := (List.all_eq_true.1 hall) c hc
    simpa using hac
  have hne : u ≠ [] := by
    rcases hpre with hp | hp <;>
    · obtain ⟨t2, ht2⟩ := (isPrefixOf_eq_true_iff _ _).1 hp
      rw [← ht2]
      simp
  have ht0 : ws1 ++ u ++ ws2 ≠ [] := by
    simp [List.append_eq_nil, hne]
  have key : scanUrls (ws1 ++ u ++ ws2) = [u] := by
    rcases hpre with hp | hp
    · obtain ⟨tail, rfl⟩ := (isPrefixOf_eq_true_iff _ _).1 hp
      have htail : tail ≠ [] := by
        intro h0
        subst h0
        rw [List.append_nil] at hval
        exact absurd hval (by decide)
      have htailns : ∀ c ∈ tail, isPySpace c = false :=
        fun c hc => hnosp c (List.mem_append_right _ hc)
      exact scanUrls_sandwich ws1 _ ws2 h1 h2 hne
        (matchUrlAt_url_http tail ws2 htailns htail h2)
    · obtain ⟨tail, rfl⟩ := (isPrefixOf_eq_true_iff _ _).1 hp
      have htail : tail ≠ [] := by
        intro h0
        subst h0
        rw [List.append_nil] at hval
        exact absurd hval (by decide)
      have htailns : ∀ c ∈ tail, isPySpace c = false :=
        fun c hc => hnosp c (List.mem_append_right _ hc)
      exact scanUrls_sandwich ws1 _ ws2 h1 h2 hne
        (matchUrlAt_url_https tail ws2 htailns htail h2)
  have hstrip : pyStrip (ws1 ++ u ++ ws2) = u :=
    pyStrip_sandwich ws1 ws2 u h1 h2 hnosp hne
  have hx : extract_single_url (ws1 ++ u ++ ws2) = some u := by
    unfold extract_single_url
    rw [if_neg ht0]
    simp only [key]
    rw [if_pos hstrip, if_pos hval]
  simp only [classify, hx]

/-- Claim C7 witness: the specification's own example, two spaces around
`https://example.com/x`. -/
theorem claim_C7_witness :
    classify (some ("  https://example.com/x  ".data)) =
      ClassifiedIntent.SingleURL ("https://example.com/x".data) := by
  have h := claim_C7 ("  ".data) ("  ".data) ("https://example.com/x".data)
    (by decide) (by decide) (by decide)
  rw [show ("  ".data ++ "https://example.com/x".data ++ "  ".data) =
    "  https://example.com/x  ".data from rfl] at h
  exact h

/-! Handler claims -/

/-- An accepted classification comes from `extract_single_url`, and only
non-empty text can be accepted. -/
theorem classify_SingleURL (t u : List Char)
    (h : classify (some t) = ClassifiedIntent.SingleURL u) :
    extract_single_url t = some u ∧ t ≠ [] := by
  have hx : extract_single_url t = some u := by
    rcases he : extract_single_url t with _ | v
    · simp only [classify, he] at h
      cases h
    · simp only [classify, he] at h
      injection h with h2
      rw [h2]
  refine ⟨hx, ?_⟩
  intro h0
  subst h0
  rw [show extract_single_url [] = none from rfl] at hx
  cases hx

/-- Claim C4: on an accepted URL with both producers and all transport
calls succeeding, the text handler performs exactly, in order: create the
status message, send the SVG artifact under
`<sanitize(url)>_qr-code.svg` with a caption naming the URL, send the PNG
artifact under `<sanitize(url)>_qr-code.png` with no caption, and delete
the status message — no failure reply. -/
theorem claim_C4 (env : TextEnv) (t u : List Char)
    (hc : classify (some t) = ClassifiedIntent.SingleURL u)
    (henv : textEnvOk env = true) :
    handle_text env (some t) =
      [Effect.sendStatus generatingText,
       Effect.sendDocument (qrFilenameSvg u) (some (svgCaption u)),
       Effect.sendDocument (qrFilenamePng u) none,
       Effect.deleteStatus] := by
  obtain ⟨hx, hne⟩ := classify_SingleURL t u hc
  obtain ⟨r, st, sv, pg, ed, s1, s2, dl⟩ := env
  simp only [textEnvOk, Bool.and_eq_true] at henv
  obtain ⟨⟨⟨⟨⟨⟨⟨rfl, rfl⟩, rfl⟩, rfl⟩, rfl⟩, rfl⟩, rfl⟩, rfl⟩ := henv
  simp [handle_text, hx, hne]

/-- Claim C4 witness: the specification's end-to-end example URL. -/
theorem claim_C4_witness :
    handle_text textEnvAllOk (some ("https://openai.com".data)) =
      [Effect.sendStatus generatingText,
       Effect.sendDocument (qrFilenameSvg ("https://openai.com".data))
         (some (svgCaption ("https://openai.com".data))),
       Effect.sendDocument (qrFilenamePng ("https://openai.com".data)) none,
       Effect.deleteStatus] :=
  claim_C4 textEnvAllOk _ _ (by decide) rfl

/-- Claim C5: on an accepted URL, if either producer raises then (with the
status send and edit succeeding) the handler's whole trace is: create the
status message, edit it to the fixed failure text — and stop; moreover,
whatever the transport does, no artifact at all is sent. -/
theorem claim_C5 (env : TextEnv) (t u : List Char)
    (hc : classify (some t) = ClassifiedIntent.SingleURL u)
    (hp : env.svgOk = false ∨ env.pngOk = false) :
    (env.statusOk = true → env.editOk = true →
      handle_text env (some t) =
        [Effect.sendStatus generatingText, Effect.editStatus qrGenFailText]) ∧
    artifactCount (handle_text env (some t)) = 0 := by
  obtain ⟨hx, hne⟩ := classify_SingleURL t u hc
  obtain ⟨r, st, sv, pg, ed, s1, s2, dl⟩ := env
  simp only at hp
  constructor
  · intro hst hed
    simp only at hst hed
    subst hst; subst hed
    rcases hp with rfl | rfl
    · simp [handle_text, hx, hne]
    · simp [handle_text, hx, hne]
  · rcases hp with rfl | rfl <;> cases st <;> cases ed <;>
      simp [handle_text, hx, hne, artifactCount, isArtifactSend]

/-- Claim C5 witness: a failing SVG producer on a concrete URL. -/
theorem claim_C5_witness :
    handle_text (TextEnv.mk true true false true true true true true)
        (some ("https://example.net".data)) =
      [Effect.sendStatus generatingText, Effect.editStatus qrGenFailText] ∧
    artifactCount (handle_text (TextEnv.mk true true false true true true true true)
        (some ("https://example.net".data))) = 0 :=
  ⟨(claim_C5 (TextEnv.mk true true false true true true true true)
      ("https://example.net".data) ("https://example.net".data)
      (by decide) (Or.inl rfl)).1 rfl rfl,
   (claim_C5 (TextEnv.mk true true false true true true true true)
      ("https://example.net".data) ("https://example.net".data)
      (by decide) (Or.inl rfl)).2⟩

/-- Claim C3, counterexample: for *empty* text — which classifies as
`NotRecognized` — the handler returns at `if not message.text` and sends
nothing at all, not the one rejection reply the claim requires (absent
text is likewise silent). -/
theorem claim_C3_counterexample :
    classify (some ([] : List Char)) = ClassifiedIntent.NotRecognized ∧
    classify none = ClassifiedIntent.NotRecognized ∧
    handle_text textEnvAllOk (some ([] : List Char)) = [] ∧
    handle_text textEnvAllOk none = [] := by decide

/-- Claim C3 (amended): for *non-empty* text classified `NotRecognized`
the handler sends exactly the one fixed rejection reply — no status
message, no artifact; for absent or empty text it exits silently, sending
nothing. -/
theorem claim_C3_amended (env : TextEnv) (t : List Char)
    (hne : t ≠ []) (hcl : classify (some t) = ClassifiedIntent.NotRecognized)
    (hr : env.rejectOk = true) :
    handle_text env (some t) = [Effect.answer rejectionText] ∧
    handle_text env none = [] ∧
    handle_text env (some []) = [] := by
  have hx : extract_single_url t = none := by
    rcases he : extract_single_url t with _ | v
    · rfl
    · simp only [classify, he] at hcl
      cases hcl
  refine ⟨?_, rfl, by simp [handle_text]⟩
  simp [handle_text, hx, hne, hr]

/-- Claim C3 witness: the specification's `"hello"` example. -/
theorem claim_C3_witness :
    handle_text textEnvAllOk (some ("hello".data)) = [Effect.answer rejectionText] ∧
    handle_text textEnvAllOk none = [] ∧
    handle_text textEnvAllOk (some []) = [] :=
  claim_C3_amended textEnvAllOk ("hello".data) (by decide) (by decide) rfl

/-- Claim C1, counterexample: when sending the SVG artifact raises (all
other calls fine), the text handler's trace creates the status message
and never edits or deletes it — the handler-level `except` only sends the
generic reply, orphaning the status message, against the claimed
exactly-once resolution on every exit path. -/
theorem claim_C1_counterexample :
    statusCreated (handle_text (TextEnv.mk true true true true true false true true)
        (some ("https://example.org".data))) = true ∧
    resolveCount (handle_text (TextEnv.mk true true true true true false true true)
        (some ("https://example.org".data))) = 0 := by decide

/-- Claim C1 (amended): as long as every *transport* call returns
normally (producers may still fail), each text- or photo-handler
invocation resolves its status message exactly once when it created one,
and never edits or deletes otherwise. On a transport failure after
creation the source leaves the status message unresolved. -/
theorem claim_C1_amended (env : TextEnv) (text : Option (List Char))
    (penv : MediaEnv) (uid : List Char)
    (ht : textTransportOk env = true) (hp : mediaTransportOk penv = true) :
    resolveCount (handle_text env text) =
      (if statusCreated (handle_text env text) = true then 1 else 0) ∧
    resolveCount (handle_photo penv uid) =
      (if statusCreated (handle_photo penv uid) = true then 1 else 0) := by
  obtain ⟨r, st, sv, pg, ed, s1, s2, dl⟩ := env
  obtain ⟨pst, pgf, pdw, prm, ped, psd, pdel⟩ := penv
  simp only [textTransportOk, mediaTransportOk, Bool.and_eq_true] at ht hp
  obtain ⟨⟨⟨⟨⟨rfl, rfl⟩, rfl⟩, rfl⟩, rfl⟩, rfl⟩ := ht
  obtain ⟨⟨⟨⟨⟨rfl, rfl⟩, rfl⟩, rfl⟩, rfl⟩, rfl⟩ := hp
  constructor
  · rcases text with _ | t
    · simp [handle_text, resolveCount, statusCreated]
    · by_cases h0 : t = []
      · subst h0
        simp [handle_text, resolveCount, statusCreated]
      · rcases hx : extract_single_url t with _ | u
        · simp [handle_text, hx, h0, resolveCount, statusCreated,
            isResolveStep, isStatusCreate]
        · cases sv <;> cases pg <;>
            simp [handle_text, hx, h0, resolveCount, statusCreated,
              isResolveStep, isStatusCreate]
  · cases prm <;>
      simp [handle_photo, resolveCount, statusCreated, isResolveStep, isStatusCreate]

/-- Claim C1 witness: the all-succeed environments on a concrete URL and
photo id, where the status message is created and resolved once. -/
theorem claim_C1_witness :
    resolveCount (handle_text textEnvAllOk (some ("https://a.com".data))) =
      (if statusCreated (handle_text textEnvAllOk (some ("https://a.com".data))) = true
       then 1 else 0) ∧
    resolveCount (handle_photo mediaEnvAllOk ("id0".data)) =
      (if statusCreated (handle_photo mediaEnvAllOk ("id0".data)) = true
       then 1 else 0) :=
  claim_C1_amended textEnvAllOk _ mediaEnvAllOk _ rfl rfl

/-- Claim C10: a document event with an absent declared media type is
silently ignored — no reply, no status message, no artifact — exactly
like one with a declared non-`image/` media type. -/
theorem claim_C10 (env : MediaEnv) (fileName : Option (List Char)) :
    handle_document env none fileName = [] ∧
    ∀ m : List Char, List.isPrefixOf ("image/".data) m = false →
      handle_document env (some m) fileName = [] := by
  constructor
  · rfl
  · intro m hm
    have hcond : ¬(m ≠ [] ∧ List.isPrefixOf ("image/".data) m = true) := by
      intro hcontra
      rw [hm] at hcontra
      exact absurd hcontra.2 (by simp)
    simp only [handle_document]
    rw [if_neg hcond]

/-- Claim C10 witness: no mime type at all, and the specification's
`application/pdf` example, both ignored. -/
theorem claim_C10_witness :
    handle_document mediaEnvAllOk none none = [] ∧
    handle_document mediaEnvAllOk (some ("application/pdf".data)) none = [] :=
  ⟨(claim_C10 mediaEnvAllOk none).1,
   (claim_C10 mediaEnvAllOk none).2 ("application/pdf".data) (by decide)⟩
